import Mathlib

/-!
# ACS Can Drive — verification of the reservation / leaderboard logic

Shallow embedding of the street-reservation, donation-recording and
leaderboard/class-buyout logic of the ACS Can Drive web application.
Frontend handlers (`MapReservation.tsx`, `DonationManagement.tsx`) are
translated directly from the TypeScript source; the FastAPI backend is not
part of the source tree, so the aggregation endpoints it implements are
modelled from the specification where a claim depends on them.

JavaScript strings are modelled as Lean `String`, JS numbers as `Rat` (no
NaN/float rounding), JSON values as the inductive `JValue`.  JS truthiness
and the `||` fallback idiom are modelled explicitly.
-/

namespace CanDrive

/-- Containment of `needle` as a contiguous run of `hay`. -/
def listIncludes (needle : List Char) : List Char → Bool
  | [] => needle.isEmpty
  | c :: rest => needle.isPrefixOf (c :: rest) || listIncludes needle rest

/-- JS `hay.includes(needle)`: substring containment, case sensitive. -/
def strIncludes (hay needle : String) : Bool :=
  listIncludes needle.toList hay.toList

/-- JS `s.toLowerCase()`, modelled character-wise (ASCII case folding, which
covers every name and street string the handlers compare). -/
def strToLower (s : String) : String :=
  String.mk (s.toList.map Char.toLower)

/-- JS `a || b` for an optional string `a`: falls through when `a` is
`undefined` or the empty string (both falsy in JS). -/
def jsOrStr : Option String → String → String
  | some s, d => if s = "" then d else s
  | none, d => d

/-- A street selected on the map (`selectedPlace` / elements of `tempStreets`
in `MapReservation.tsx`): coordinates plus the display name. -/
structure Street where
  lat : Rat
  lng : Rat
  name : String
deriving DecidableEq, Repr

/-- JS `s.trim()`, modelled character-wise. -/
def strTrim (s : String) : String :=
  String.mk (((s.toList.dropWhile Char.isWhitespace).reverse.dropWhile
    Char.isWhitespace).reverse)

/-- A JSON value, the result of `JSON.parse` on the serialized `geojson`
coordinate blob.  Numbers are exact rationals (no NaN / float rounding). -/
inductive JValue where
  | null
  | bool (b : Bool)
  | num (q : Rat)
  | str (s : String)
  | arr (elems : List JValue)
  | obj (fields : List (String × JValue))

/-- JS property access `v.k`: a field lookup on objects, `undefined` (here
`none`) on every other value shape used by the handlers. -/
def JValue.get : JValue → String → Option JValue
  | .obj fields, k => (fields.find? fun kv => kv.1 == k).map Prod.snd
  | _, _ => none

/-- JS truthiness of a JSON value: `0`, `""`, `false` and `null` are falsy;
arrays and objects are truthy. -/
def JValue.truthy : JValue → Bool
  | .null => false
  | .bool b => b
  | .num q => q != 0
  | .str s => s != ""
  | .arr _ => true
  | .obj _ => true

/-- Truthiness of a possibly-`undefined` value. -/
def optTruthy : Option JValue → Bool
  | some v => v.truthy
  | none => false

/-- Numeric value of a decimal digit run. -/
def digitsVal (l : List Char) : Nat :=
  l.foldl (fun n c => 10 * n + (c.toNat - Char.toNat '0')) 0

/-- JS `parseFloat` on a string: skip leading whitespace, optional sign,
then the longest `digits[.digits]` prefix; `none` models NaN.  Exponent
suffixes are not modelled (the app never serializes them). -/
def parseFloatStr (s : String) : Option Rat :=
  let l := s.toList.dropWhile Char.isWhitespace
  let signRest : Int × List Char :=
    match l with
    | '-' :: rest => (-1, rest)
    | '+' :: rest => (1, rest)
    | _ => (1, l)
  let intDigits := signRest.2.takeWhile Char.isDigit
  let afterInt := signRest.2.drop intDigits.length
  let fracDigits : List Char :=
    match afterInt with
    | '.' :: r => r.takeWhile Char.isDigit
    | _ => []
  if intDigits.isEmpty && fracDigits.isEmpty then none
  else
    some ((signRest.1 : Rat) * ((digitsVal intDigits : Rat) +
      (digitsVal fracDigits : Rat) / ((10 : Rat) ^ fracDigits.length)))

/-- JS `parseFloat` applied to a possibly-`undefined` JSON value: numbers
parse to themselves, strings through `parseFloatStr`; `undefined`, `null`,
booleans and objects give NaN (`none`).  (Array-to-string coercions are
outside the model; the app never stores coordinate arrays-of-arrays.) -/
def jsParseFloat : Option JValue → Option Rat
  | some (.num q) => some q
  | some (.str s) => parseFloatStr s
  | _ => none

/-- The state of the serialized `geojson` field of a stored reservation row:
absent (or empty, both falsy before the `JSON.parse` call), present but
malformed (`JSON.parse` throws), or parsed to a JSON value. -/
inductive GeoField where
  | missing
  | malformed
  | parsed (v : JValue)

/-- A reservation row as returned by `GET /events/{id}/map-reservations` and
held in the `reservations` state of `MapReservation.tsx`.  The rows are
`any`-typed in the source: the donor name appears either as `studentName` or
as `name` (both read by the handlers), and the street name under both
`street_name` and `streetName`, hence the duplicated fields here. -/
structure Reservation where
  id : Nat
  studentName : Option String
  name : Option String
  street_name : String
  streetName : String
  group_members : String
  geojson : GeoField

/-- `r.studentName || r.name || ''` from `handleReserve`. -/
def reservedBy (r : Reservation) : String :=
  jsOrStr r.studentName (jsOrStr r.name "")

/-- The component state touched by `handleReserve`. -/
structure ReserveState where
  reservations : List Reservation
  tempStreets : List Street
  myReservations : List String
  selectedPlace : Option Street
  showInfo : Bool

/-- Outcome of `handleReserve`: no-op (nothing selected), a conflict toast,
or a success toast. -/
inductive ReserveOutcome where
  | noop
  | conflict (msg : String)
  | added (msg : String)
deriving DecidableEq, Repr

/-- The `reservations.some(...)` conflict test of `handleReserve`:
`streetMatch` is `r.street_name && r.street_name.includes(selectedPlace.name)`
(truthiness of the string, then a case-sensitive substring test) and
`differentUser` compares the lowercased donor names. -/
def isAlreadyReservedCheck (reservations : List Reservation)
    (currentUser : String) (place : Street) : Bool :=
  reservations.any fun r =>
    ((r.street_name != "") && strIncludes r.street_name place.name) &&
    (strToLower (reservedBy r) != strToLower currentUser)

/-- `handleReserve` from `MapReservation.tsx`: rejects when the conflict test
fires, otherwise appends the selected place to the temporary selection. -/
def handleReserve (studentName : String) (st : ReserveState) :
    ReserveState × ReserveOutcome :=
  match st.selectedPlace with
  | none => (st, .noop)
  | some place =>
    if isAlreadyReservedCheck st.reservations studentName place then
      ({ st with showInfo := false, selectedPlace := none },
       .conflict (place.name ++ " is already reserved by someone else!"))
    else
      ({ st with
          tempStreets := st.tempStreets ++ [place],
          myReservations := st.myReservations ++ [place.name],
          showInfo := false,
          selectedPlace := none },
       .added (place.name ++ " added to your selection!"))

/-- A student row used for group collection (`selectedStudent` /
`groupStudents` in `MapReservation.tsx`). -/
structure Student where
  id : String
  first_name : String
  last_name : String
deriving DecidableEq, Repr

/-- The name template used throughout the component for group members. -/
def fullName (s : Student) : String :=
  s.first_name ++ " " ++ s.last_name

/-- The donor-match test used by both `checkExistingReservation` and
`handleCompleteRegistration`: a strict (`===`) comparison of the row's
`studentName` or `name` field against the current donor's name. -/
def matchesDonor (studentName : String) (r : Reservation) : Bool :=
  r.studentName == some studentName || r.name == some studentName

/-- `reservations.find(...)`: the first row whose donor matches. -/
def findExisting (studentName : String) (rows : List Reservation) :
    Option Reservation :=
  rows.find? (matchesDonor studentName)

/-- The request body posted to `POST /events/{id}/map-reservations` by
`handleCompleteRegistration`.  The `geojson` field carries the street list
that the source passes through `JSON.stringify`. -/
structure ReservationPayload where
  name : String
  street_name : String
  group_members : String
  geojson : List Street
  student_id : Option Int
deriving DecidableEq, Repr

/-- An HTTP request issued against the map-reservations endpoint. -/
inductive ApiCall where
  | del (id : Nat)
  | post (p : ReservationPayload)
deriving DecidableEq, Repr

/-- The component state read by `handleCompleteRegistration`. -/
structure RegState where
  reservations : List Reservation
  tempStreets : List Street
  myReservations : List String
  groupStudents : List Student
  showGroupCollection : Bool

/-- Outcome of `handleCompleteRegistration`: a validation toast, or the
update / create success toasts (carrying the street count shown). -/
inductive RegOutcome where
  | validationError (msg : String)
  | updated (n : Nat)
  | created (n : Nat)
deriving DecidableEq, Repr

/-- The payload both branches of `handleCompleteRegistration` build: street
names joined into one comma-separated field, group members joined likewise
when group collection is on, and `student_id` only for students. -/
def mkRegPayload (studentName : String) (studentId : Int) (isTeacher : Bool)
    (st : RegState) : ReservationPayload :=
  { name := studentName,
    street_name := String.intercalate ", " (st.tempStreets.map Street.name),
    group_members :=
      if st.showGroupCollection then
        String.intercalate ", " (st.groupStudents.map fullName)
      else "",
    geojson := st.tempStreets,
    student_id := if isTeacher then none else some studentId }

/-- `handleCompleteRegistration` from `MapReservation.tsx`: rejects an empty
selection; otherwise, when the donor already has a reservation, deletes it
and posts a fresh one (delete-then-recreate), else just posts.  The success
path (state cleared after the calls) is modelled; a server error response
would only change the toast shown. -/
def handleCompleteRegistration (studentName : String) (studentId : Int)
    (isTeacher : Bool) (st : RegState) :
    RegState × List ApiCall × RegOutcome :=
  if st.tempStreets.length = 0 then
    (st, [],
     .validationError "Please select at least one street before completing registration")
  else
    let payload := mkRegPayload studentName studentId isTeacher st
    let cleared : RegState :=
      { st with
          tempStreets := [], myReservations := [], groupStudents := [],
          showGroupCollection := false }
    match findExisting studentName st.reservations with
    | some existing =>
      (cleared, [.del existing.id, .post payload], .updated st.tempStreets.length)
    | none =>
      (cleared, [.post payload], .created st.tempStreets.length)

/-- Effect of the `DELETE /events/{id}/map-reservations/{rid}` call on the
persisted reservation table: the row with that id is removed. -/
def applyDelete (store : List Reservation) (rid : Nat) : List Reservation :=
  store.filter fun r => r.id != rid

/-- Coordinate extraction of `checkExistingReservation`: Windsor defaults,
overridden from the parsed `geojson` blob when it is a non-empty array
(first element, `|| default` fallback per coordinate) or a single object
with truthy `lat` and `lng`.  A malformed blob is caught and the defaults
kept.  Coordinates the app writes are JSON numbers; other value shapes keep
the defaults here. -/
def loadedCoords (g : GeoField) : Rat × Rat :=
  let defLat : Rat := 42.3149
  let defLng : Rat := -83.0364
  match g with
  | .parsed (.arr (first :: _)) =>
    (match first.get "lat" with
     | some (.num q) => if q != 0 then q else defLat
     | _ => defLat,
     match first.get "lng" with
     | some (.num q) => if q != 0 then q else defLng
     | _ => defLng)
  | .parsed gj =>
    match gj.get "lat", gj.get "lng" with
    | some (.num a), some (.num b) =>
      if a != 0 && b != 0 then (a, b) else (defLat, defLng)
    | _, _ => (defLat, defLng)
  | _ => (defLat, defLng)

/-- `checkExistingReservation` from `MapReservation.tsx`: looks for the
donor's reservation in the freshly fetched rows; when found, deliberately
does NOT split the stored street name on commas — the entire `streetName`
(trimmed) becomes the single element of both `tempStreets` and
`myReservations`.  Returns the loaded selection, `none` when the donor has
no reservation (state untouched). -/
def checkExistingReservation (studentName : String)
    (rows : List Reservation) : Option (List Street × List String) :=
  match findExisting studentName rows with
  | none => none
  | some ex =>
    let c := loadedCoords ex.geojson
    some ([⟨c.1, c.2, strTrim ex.streetName⟩], [strTrim ex.streetName])

/-- Outcome of `addStudentToGroup`. -/
inductive GroupOutcome where
  | selfError (msg : String)
  | alreadyError (msg : String)
  | added (msg : String)
  | noop
deriving DecidableEq, Repr

/-- `addStudentToGroup` from `MapReservation.tsx`: nothing happens with no
selection; a student whose id is already in the group is refused; a
selected student whose lowercased full name equals the lowercased current
donor name is refused as a self-add; otherwise the student is appended. -/
def addStudentToGroup (studentName : String) (selectedStudent : Option Student)
    (groupStudents : List Student) : List Student × GroupOutcome :=
  match selectedStudent with
  | none => (groupStudents, .noop)
  | some sel =>
    if (groupStudents.find? fun s => s.id == sel.id).isSome then
      (groupStudents, .alreadyError "Student already in group")
    else if strToLower studentName == strToLower (fullName sel) then
      (groupStudents,
       .selfError "You cannot add yourself as a group member. You are already the primary collector.")
    else
      (groupStudents ++ [sel], .added (fullName sel ++ " added to group"))

/-- Donor kind selected in the donation form (`donorType` state). -/
inductive DonorType where
  | student
  | teacher
deriving DecidableEq, Repr

/-- A donor picked from the autocomplete (`selected` / `selectedTeacher`). -/
structure SelectedDonor where
  id : Nat
  name : String
deriving DecidableEq, Repr

/-- The request body posted to `POST /events/{id}/donations`. -/
structure DonationPayload where
  admin_id : Nat
  amount : Int
  student_id : Option Nat
  teacher_id : Option Nat
deriving DecidableEq, Repr

/-- Outcome of the donation `submit` handler: a validation toast with no
request sent, or one request with the given payload. -/
inductive SubmitResult where
  | rejected (msg : String)
  | sent (p : DonationPayload)
deriving DecidableEq, Repr

/-- `submit` from `DonationManagement.tsx`: per donor kind, requires a
selected donor and a positive amount, then posts a payload carrying
`student_id` for students and `teacher_id` for teachers — never both. -/
def submit (donorType : DonorType) (selected selectedTeacher : Option SelectedDonor)
    (amount : Int) : SubmitResult :=
  if donorType = DonorType.student ∧ (selected = none ∨ amount ≤ 0) then
    .rejected "Select a student and enter a positive number of cans"
  else if donorType = DonorType.teacher ∧ (selectedTeacher = none ∨ amount ≤ 0) then
    .rejected "Select a teacher and enter a positive number of cans"
  else
    match donorType with
    | .student =>
      .sent { admin_id := 1, amount := amount,
              student_id := selected.map SelectedDonor.id, teacher_id := none }
    | .teacher =>
      .sent { admin_id := 1, amount := amount,
              student_id := none, teacher_id := selectedTeacher.map SelectedDonor.id }

/-- The row shape `getLatLng` reads: possibly-present `latitude` and
`longitude` properties and the serialized `geojson` blob. -/
structure ResRead where
  latitude : Option JValue
  longitude : Option JValue
  geojson : GeoField

/-- `getLatLng` from `MapReservation.tsx`: numeric top-level
`latitude`/`longitude` first; otherwise the parsed `geojson` blob — a
non-empty array's first element (lat/lng through `parseFloat`), then a
single object with truthy `lat` and `lng` (again through `parseFloat`);
a parse failure is caught; every remaining shape yields `null`. -/
def getLatLng (r : ResRead) : Option (Rat × Rat) :=
  match r.latitude, r.longitude with
  | some (.num a), some (.num b) => some (a, b)
  | _, _ =>
    match r.geojson with
    | .malformed => none
    | g =>
      let gj : JValue := match g with | .parsed v => v | _ => .obj []
      let arrBranch : Option (Rat × Rat) :=
        match gj with
        | .arr (first :: _) =>
          match jsParseFloat (first.get "lat"), jsParseFloat (first.get "lng") with
          | some a, some b => some (a, b)
          | _, _ => none
        | _ => none
      match arrBranch with
      | some p => some p
      | none =>
        if optTruthy (gj.get "lat") && optTruthy (gj.get "lng") then
          match jsParseFloat (gj.get "lat"), jsParseFloat (gj.get "lng") with
          | some a, some b => some (a, b)
          | _, _ => none
        else none

/-- Modelled from the spec: the FastAPI backend computing
`GET /events/{id}/leaderboard` is not in the source tree (only its frontend
callers are), so the per-class aggregate it serves is modelled from §4.2 of
the specification.  A class as the aggregation sees it: possibly-missing
homeroom teacher and room, member count, and the summed can total. -/
structure ClassInfo where
  homeroom_teacher : Option String
  homeroom_number : Option String
  student_count : Nat
  actual_cans : Nat
deriving DecidableEq, Repr

/-- A class-buyout list entry as consumed by `ClassBuyoutView.tsx`
(`ClassBuyoutData` there, `ClassBuyoutEntry` in `types/index.ts`); the
display-only `class_name` field is omitted. -/
structure ClassBuyoutEntry where
  homeroom_teacher : String
  homeroom_number : String
  student_count : Nat
  required_cans : Nat
  actual_cans : Nat
  is_eligible : Bool
  progress_percentage : Rat
deriving DecidableEq, Repr

/-- Modelled from the spec (§4.2 class buyout rule): required cans are
10 per student, eligibility is actual ≥ required, and the progress
percentage is actual/required × 100, uncapped. -/
def mkBuyoutEntry (t room : String) (c : ClassInfo) : ClassBuyoutEntry :=
  let required := 10 * c.student_count
  { homeroom_teacher := t, homeroom_number := room,
    student_count := c.student_count,
    required_cans := required,
    actual_cans := c.actual_cans,
    is_eligible := decide (required ≤ c.actual_cans),
    progress_percentage := (c.actual_cans : Rat) / (required : Rat) * 100 }

/-- Modelled from the spec (§4.2): a class appears in the buyout list only
when both the homeroom teacher and the homeroom number are assigned and the
class has at least one student. -/
def classBuyoutList (classes : List ClassInfo) : List ClassBuyoutEntry :=
  classes.filterMap fun c =>
    match c.homeroom_teacher, c.homeroom_number with
    | some t, some room =>
      if 1 ≤ c.student_count then some (mkBuyoutEntry t room c) else none
    | _, _ => none

/-- An unranked leaderboard row (a grouped SUM as the spec describes it). -/
structure RawEntry where
  name : String
  totalCans : Nat
deriving DecidableEq, Repr

/-- A ranked leaderboard row (`LeaderboardEntry` in `types/index.ts`,
restricted to the fields the ranking rule concerns). -/
structure RankedEntry where
  rank : Nat
  name : String
  totalCans : Nat
deriving DecidableEq, Repr

/-- Modelled from the spec (§4.2 ranking rule): stable insertion of an
entry into a list already sorted descending by total cans — the new entry
goes before the first strictly-smaller entry and after every ≥ one, so an
earlier-inserted tie stays first. -/
def insertByCans (x : RawEntry) : List RawEntry → List RawEntry
  | [] => [x]
  | y :: ys =>
    if y.totalCans ≤ x.totalCans then x :: y :: ys else y :: insertByCans x ys

/-- Modelled from the spec (§4.2): stable sort of the grouped totals,
descending by total cans. -/
def sortByCansDesc : List RawEntry → List RawEntry
  | [] => []
  | x :: xs => insertByCans x (sortByCansDesc xs)

/-- Rank assignment: consecutive ranks starting at `n`. -/
def rankFrom (n : Nat) : List RawEntry → List RankedEntry
  | [] => []
  | e :: es => ⟨n, e.name, e.totalCans⟩ :: rankFrom (n + 1) es

/-- Modelled from the spec (§4.2): the ranked leaderboard — entries sorted
descending by total cans (stable) with ranks 1, 2, 3, …. -/
def rankEntries (l : List RawEntry) : List RankedEntry :=
  rankFrom 1 (sortByCansDesc l)

/-- Concrete empty registration state. -/
def c8St : RegState :=
  { reservations := [], tempStreets := [], myReservations := [],
    groupStudents := [], showGroupCollection := false }

/-- Concrete stored reservation of donor "Jane Doe". -/
def c4Res : Reservation :=
  { id := 5, studentName := some "Jane Doe", name := none,
    street_name := "Oak Ave", streetName := "Oak Ave",
    group_members := "", geojson := GeoField.missing }

/-- Concrete registration state: "Jane Doe" edits her reservation, two
streets selected. -/
def c4St : RegState :=
  { reservations := [c4Res],
    tempStreets := [⟨1, 2, "Oak Ave"⟩, ⟨3, 4, "Pine St"⟩],
    myReservations := ["Oak Ave", "Pine St"],
    groupStudents := [], showGroupCollection := false }

/-- Concrete stored row after "Jane Doe" reserved two streets: the two
names live in one comma-joined field. -/
def c10Row : Reservation :=
  { id := 6, studentName := some "Jane Doe", name := none,
    street_name := "Oak Ave, Pine St", streetName := "Oak Ave, Pine St",
    group_members := "", geojson := GeoField.missing }

/-- Concrete reservation row whose geojson blob is an object with a nested
`path` shape — one of the shapes §6 of the spec says is tolerated. -/
def nestedPathRow : ResRead :=
  { latitude := none, longitude := none,
    geojson := GeoField.parsed (JValue.obj [("path",
      JValue.arr [JValue.obj [("lat", JValue.num 42), ("lng", JValue.num (-83))]])]) }

/-- Concrete class for the buyout scenario: 20 students, 150 cans. -/
def c7Class : ClassInfo :=
  { homeroom_teacher := some "Smith", homeroom_number := some "101",
    student_count := 20, actual_cans := 150 }

/-- Concrete unranked leaderboard rows with a tie (5 cans twice). -/
def c3Rows : List RawEntry :=
  [⟨"Ann", 5⟩, ⟨"Bea", 9⟩, ⟨"Cal", 5⟩]

/-- Concrete reservation used to exercise the conflict check: street stored
in upper case by donor "Student A". -/
def c1Res : Reservation :=
  { id := 1, studentName := some "Student A", name := none,
    street_name := "MAIN STREET", streetName := "MAIN STREET",
    group_members := "", geojson := GeoField.missing }

/-- Concrete `handleReserve` state: "Student B" has selected "Main Street"
while "Student A" holds the upper-cased variant. -/
def c1St : ReserveState :=
  { reservations := [c1Res], tempStreets := [], myReservations := [],
    selectedPlace := some ⟨0, 0, "Main Street"⟩, showInfo := true }

/-- C1: counterexample to the claim as stated.  The stored street name
"MAIN STREET" contains the requested "Main Street" under case-insensitive
comparison and the donors differ case-insensitively, yet `handleReserve`
does NOT reject: the street-name containment test in the source is case
sensitive (`String.prototype.includes` with no lowercasing), so the attempt
succeeds and the selection changes. -/
theorem handleReserve_case_insensitive_counterexample :
    strIncludes (strToLower "MAIN STREET") (strToLower "Main Street") = true ∧
    strToLower (reservedBy c1Res) ≠ strToLower "Student B" ∧
    (handleReserve "Student B" c1St).2 =
      ReserveOutcome.added ("Main Street" ++ " added to your selection!") ∧
    (handleReserve "Student B" c1St).1.tempStreets = [⟨0, 0, "Main Street"⟩] := by
  decide

/-- C1 (amended): the street-name check is a case-sensitive substring match
(only the donor-name comparison is case-insensitive).  If some existing
reservation has a non-empty `street_name` containing the requested street
name as an exact substring, and its donor name differs from the requester
case-insensitively, then `handleReserve` rejects with a conflict message
naming the requested street, and the temporary selection, the selected-street
name list and the reservation list are all unchanged. -/
theorem handleReserve_conflict_rejected (studentName : String)
    (st : ReserveState) (place : Street) (r : Reservation)
    (hsel : st.selectedPlace = some place)
    (hmem : r ∈ st.reservations)
    (hne : r.street_name ≠ "")
    (hsub : strIncludes r.street_name place.name = true)
    (hdiff : strToLower (reservedBy r) ≠ strToLower studentName) :
    (handleReserve studentName st).2 =
      ReserveOutcome.conflict (place.name ++ " is already reserved by someone else!") ∧
    (handleReserve studentName st).1.tempStreets = st.tempStreets ∧
    (handleReserve studentName st).1.myReservations = st.myReservations ∧
    (handleReserve studentName st).1.reservations = st.reservations := by
  have hcheck : isAlreadyReservedCheck st.reservations studentName place = true := by
    refine List.any_eq_true.mpr ⟨r, hmem, ?_⟩
    simp only [Bool.and_eq_true, bne_iff_ne, ne_eq]
    exact ⟨⟨hne, hsub⟩, hdiff⟩
  simp [handleReserve, hsel, hcheck]

/-- C1 witness: the amended theorem applied to a concrete conflicting state
(same-case street names, differing donors). -/
theorem handleReserve_conflict_rejected_witness :
    (handleReserve "Student B"
        { c1St with reservations := [{ c1Res with street_name := "Main Street" }] }).2 =
      ReserveOutcome.conflict ("Main Street" ++ " is already reserved by someone else!") ∧
    (handleReserve "Student B"
        { c1St with reservations := [{ c1Res with street_name := "Main Street" }] }).1.tempStreets =
      ({ c1St with reservations := [{ c1Res with street_name := "Main Street" }] } : ReserveState).tempStreets ∧
    (handleReserve "Student B"
        { c1St with reservations := [{ c1Res with street_name := "Main Street" }] }).1.myReservations =
      ({ c1St with reservations := [{ c1Res with street_name := "Main Street" }] } : ReserveState).myReservations ∧
    (handleReserve "Student B"
        { c1St with reservations := [{ c1Res with street_name := "Main Street" }] }).1.reservations =
      ({ c1St with reservations := [{ c1Res with street_name := "Main Street" }] } : ReserveState).reservations :=
  handleReserve_conflict_rejected "Student B" _ ⟨0, 0, "Main Street"⟩
    { c1Res with street_name := "Main Street" }
    rfl (List.mem_singleton.mpr rfl) (by decide) (by decide) (by decide)

/-- C8: completing a reservation with an empty street list is rejected with
a validation message; no create or delete request is issued and all
reservation state is unchanged. -/
theorem emptySelection_rejected (studentName : String) (studentId : Int)
    (isTeacher : Bool) (st : RegState) (h : st.tempStreets = []) :
    handleCompleteRegistration studentName studentId isTeacher st =
      (st, [],
       RegOutcome.validationError
         "Please select at least one street before completing registration") := by
  simp [handleCompleteRegistration, h]

/-- C8 witness: the empty-selection rejection at a concrete state. -/
theorem emptySelection_rejected_witness :
    handleCompleteRegistration "Jane Doe" 7 false c8St =
      (c8St, [],
       RegOutcome.validationError
         "Please select at least one street before completing registration") :=
  emptySelection_rejected "Jane Doe" 7 false c8St rfl

/-- C4: for a donor who already has a reservation, completing registration
performs the edit as delete-then-recreate: the calls issued are exactly the
deletion of the existing row followed by one creation whose `street_name`
joins all selected street names with a comma; and once the delete is
applied (the donor's matching rows all being that one row), the donor has
no persisted reservation until the create lands. -/
theorem updateReservation_delete_then_recreate
    (studentName : String) (studentId : Int) (isTeacher : Bool)
    (st : RegState) (existing : Reservation)
    (hne : st.tempStreets ≠ [])
    (hfind : findExisting studentName st.reservations = some existing)
    (huniq : ∀ r ∈ st.reservations,
      matchesDonor studentName r = true → r.id = existing.id) :
    (handleCompleteRegistration studentName studentId isTeacher st).2.1 =
      [ApiCall.del existing.id,
       ApiCall.post (mkRegPayload studentName studentId isTeacher st)] ∧
    (mkRegPayload studentName studentId isTeacher st).street_name =
      String.intercalate ", " (st.tempStreets.map Street.name) ∧
    ∀ r ∈ applyDelete st.reservations existing.id,
      matchesDonor studentName r = false := by
  refine ⟨?_, rfl, ?_⟩
  · have hlen : ¬ st.tempStreets.length = 0 := by
      simpa [List.length_eq_zero] using hne
    simp [handleCompleteRegistration, hlen, hfind]
  · intro r hr
    rcases List.mem_filter.mp hr with ⟨hmem, hid⟩
    cases hM : matchesDonor studentName r with
    | false => rfl
    | true =>
      exact absurd (huniq r hmem hM) (by simpa [bne_iff_ne] using hid)

/-- C4 witness: the delete-then-recreate sequence at a concrete edit of a
two-street reservation. -/
theorem updateReservation_delete_then_recreate_witness :
    (handleCompleteRegistration "Jane Doe" 7 false c4St).2.1 =
      [ApiCall.del c4Res.id,
       ApiCall.post (mkRegPayload "Jane Doe" 7 false c4St)] ∧
    (mkRegPayload "Jane Doe" 7 false c4St).street_name =
      String.intercalate ", " (c4St.tempStreets.map Street.name) ∧
    ∀ r ∈ applyDelete c4St.reservations c4Res.id,
      matchesDonor "Jane Doe" r = false :=
  updateReservation_delete_then_recreate "Jane Doe" 7 false c4St c4Res
    (by decide) rfl (by decide)

/-- C10: street lists do not round-trip.  Creation joins the selected
street names into one comma-separated `street_name`; when that stored row
is later found by `checkExistingReservation`, the whole joined string
(trimmed) is loaded as a single selected street — deliberately not split on
commas — so for two or more originally selected streets the reloaded
name list cannot equal the original one. -/
theorem streetList_no_roundtrip
    (studentName : String) (studentId : Int) (isTeacher : Bool)
    (st : RegState) (rows : List Reservation) (ex : Reservation)
    (h2 : 2 ≤ st.tempStreets.length)
    (hstored : ex.streetName =
      (mkRegPayload studentName studentId isTeacher st).street_name)
    (hfound : findExisting studentName rows = some ex) :
    (mkRegPayload studentName studentId isTeacher st).street_name =
      String.intercalate ", " (st.tempStreets.map Street.name) ∧
    checkExistingReservation studentName rows =
      some ([⟨(loadedCoords ex.geojson).1, (loadedCoords ex.geojson).2,
              strTrim (String.intercalate ", " (st.tempStreets.map Street.name))⟩],
            [strTrim (String.intercalate ", " (st.tempStreets.map Street.name))]) ∧
    [strTrim (String.intercalate ", " (st.tempStreets.map Street.name))] ≠
      st.tempStreets.map Street.name := by
  have hname : ex.streetName =
      String.intercalate ", " (st.tempStreets.map Street.name) := hstored
  refine ⟨rfl, ?_, ?_⟩
  · simp [checkExistingReservation, hfound, hname]
  · intro hcontra
    have hlen := congrArg List.length hcontra
    simp [List.length_map] at hlen
    omega

/-- C10 witness: a concrete two-street reservation reloads as one street
named by the entire joined string. -/
theorem streetList_no_roundtrip_witness :
    (mkRegPayload "Jane Doe" 7 false c4St).street_name =
      String.intercalate ", " (c4St.tempStreets.map Street.name) ∧
    checkExistingReservation "Jane Doe" [c10Row] =
      some ([⟨(loadedCoords c10Row.geojson).1, (loadedCoords c10Row.geojson).2,
              strTrim (String.intercalate ", " (c4St.tempStreets.map Street.name))⟩],
            [strTrim (String.intercalate ", " (c4St.tempStreets.map Street.name))]) ∧
    [strTrim (String.intercalate ", " (c4St.tempStreets.map Street.name))] ≠
      c4St.tempStreets.map Street.name :=
  streetList_no_roundtrip "Jane Doe" 7 false c4St [c10Row] c10Row
    (by decide) (by decide) rfl

/-- C9: a donor adding themselves as a group member of their own
reservation is refused — when the selected student's lowercased full name
equals the lowercased donor name the add produces an error and the group is
unchanged — and a student whose id is already in the group is likewise not
added twice (error, group unchanged). -/
theorem addStudentToGroup_guards (studentName : String) (sel : Student)
    (groupStudents : List Student) :
    (strToLower (fullName sel) = strToLower studentName →
      (addStudentToGroup studentName (some sel) groupStudents).1 = groupStudents ∧
      ((addStudentToGroup studentName (some sel) groupStudents).2 =
          GroupOutcome.selfError
            "You cannot add yourself as a group member. You are already the primary collector." ∨
       (addStudentToGroup studentName (some sel) groupStudents).2 =
          GroupOutcome.alreadyError "Student already in group")) ∧
    ((groupStudents.find? fun s => s.id == sel.id).isSome = true →
      (addStudentToGroup studentName (some sel) groupStudents).1 = groupStudents ∧
      (addStudentToGroup studentName (some sel) groupStudents).2 =
        GroupOutcome.alreadyError "Student already in group") := by
  constructor
  · intro hself
    by_cases hfound : (groupStudents.find? fun s => s.id == sel.id).isSome
    · simp [addStudentToGroup, hfound]
    · have hb : (strToLower studentName == strToLower (fullName sel)) = true :=
        beq_iff_eq.mpr hself.symm
      simp [addStudentToGroup, hfound, hb]
  · intro hfound
    simp [addStudentToGroup, hfound]

/-- C9 witness: the theorem applied to a concrete self-add (case differing
only in letter case) and to a concrete duplicate add. -/
theorem addStudentToGroup_guards_witness :
    ((addStudentToGroup "Jane Doe" (some ⟨"s1", "JANE", "DOE"⟩) []).1 = [] ∧
     ((addStudentToGroup "Jane Doe" (some ⟨"s1", "JANE", "DOE"⟩) []).2 =
        GroupOutcome.selfError
          "You cannot add yourself as a group member. You are already the primary collector." ∨
      (addStudentToGroup "Jane Doe" (some ⟨"s1", "JANE", "DOE"⟩) []).2 =
        GroupOutcome.alreadyError "Student already in group")) ∧
    ((addStudentToGroup "Jane Doe" (some ⟨"s2", "Bob", "Lee"⟩)
        [⟨"s2", "Bob", "Lee"⟩]).1 = [⟨"s2", "Bob", "Lee"⟩] ∧
     (addStudentToGroup "Jane Doe" (some ⟨"s2", "Bob", "Lee"⟩)
        [⟨"s2", "Bob", "Lee"⟩]).2 =
       GroupOutcome.alreadyError "Student already in group") :=
  ⟨(addStudentToGroup_guards "Jane Doe" ⟨"s1", "JANE", "DOE"⟩ []).1 (by decide),
   (addStudentToGroup_guards "Jane Doe" ⟨"s2", "Bob", "Lee"⟩
      [⟨"s2", "Bob", "Lee"⟩]).2 (by decide)⟩

/-- C5: the donation submit handler sends a request only when a donor of
the selected kind is picked and the amount is positive — otherwise it
rejects with a validation message and sends nothing — and every payload it
does send carries a positive amount and exactly one donor id: `student_id`
for students, `teacher_id` for teachers, never both. -/
theorem submit_validates (donorType : DonorType)
    (selected selectedTeacher : Option SelectedDonor) (amount : Int) :
    ((donorType = DonorType.student ∧ selected = none) ∨
     (donorType = DonorType.teacher ∧ selectedTeacher = none) ∨
     amount ≤ 0 →
      ∃ msg, submit donorType selected selectedTeacher amount =
        SubmitResult.rejected msg) ∧
    (∀ p, submit donorType selected selectedTeacher amount =
        SubmitResult.sent p →
      0 < p.amount ∧ p.amount = amount ∧
      (donorType = DonorType.student →
        p.teacher_id = none ∧ ∃ s, selected = some s ∧ p.student_id = some s.id) ∧
      (donorType = DonorType.teacher →
        p.student_id = none ∧
        ∃ t, selectedTeacher = some t ∧ p.teacher_id = some t.id)) := by
  constructor
  · intro h
    unfold submit
    rcases h with ⟨hdt, hsel⟩ | ⟨hdt, hsel⟩ | hamt
    · subst hdt
      simp [hsel]
    · subst hdt
      simp [hsel]
    · cases donorType <;> simp [hamt]
  · intro p hp
    unfold submit at hp
    by_cases h1 : donorType = DonorType.student ∧ (selected = none ∨ amount ≤ 0)
    · simp [h1] at hp
    · by_cases h2 :
        donorType = DonorType.teacher ∧ (selectedTeacher = none ∨ amount ≤ 0)
      · simp [h1, h2] at hp
      · rw [if_neg h1, if_neg h2] at hp
        cases donorType with
        | student =>
          have h1b : ¬ (selected = none ∨ amount ≤ 0) := fun hc => h1 ⟨rfl, hc⟩
          push_neg at h1b
          rcases h1b with ⟨hsel, hamt⟩
          rcases Option.ne_none_iff_exists.mp hsel with ⟨s, hs⟩
          cases hp
          refine ⟨hamt, rfl, fun _ => ⟨rfl, s, hs.symm, ?_⟩, by simp⟩
          simp [hs.symm]
        | teacher =>
          have h2b : ¬ (selectedTeacher = none ∨ amount ≤ 0) := fun hc => h2 ⟨rfl, hc⟩
          push_neg at h2b
          rcases h2b with ⟨hsel, hamt⟩
          rcases Option.ne_none_iff_exists.mp hsel with ⟨t, ht⟩
          cases hp
          refine ⟨hamt, rfl, by simp, fun _ => ⟨rfl, t, ht.symm, ?_⟩⟩
          simp [ht.symm]

/-- C5 witness: the theorem applied to a concrete missing-donor rejection
and to a concrete student donation payload. -/
theorem submit_validates_witness :
    (∃ msg, submit DonorType.student none none 5 = SubmitResult.rejected msg) ∧
    ∀ p, submit DonorType.student (some ⟨3, "Jane Doe"⟩) none 5 =
        SubmitResult.sent p →
      0 < p.amount ∧ p.amount = 5 ∧
      (DonorType.student = DonorType.student →
        p.teacher_id = none ∧
        ∃ s, (some (⟨3, "Jane Doe"⟩ : SelectedDonor)) = some s ∧
          p.student_id = some s.id) ∧
      (DonorType.student = DonorType.teacher →
        p.student_id = none ∧
        ∃ t, (none : Option SelectedDonor) = some t ∧ p.teacher_id = some t.id) :=
  ⟨(submit_validates DonorType.student none none 5).1 (Or.inl ⟨rfl, rfl⟩),
   (submit_validates DonorType.student (some ⟨3, "Jane Doe"⟩) none 5).2⟩

/-- C6: counterexample to the claim as stated.  A reservation row whose
geojson blob is an object with a nested `path` (one of the shapes the claim
says `getLatLng` tolerates) yields `null`: `getLatLng` has no nested-path
branch — only the numeric top-level fields, the array shape and the flat
single-object shape are handled. -/
theorem getLatLng_nestedPath_counterexample :
    getLatLng nestedPathRow = none := rfl

/-- C6 (amended): `getLatLng` is total (a malformed blob is caught, not
thrown) and returns a pair exactly for the handled shapes: numeric
top-level `latitude`/`longitude`; a geojson array whose first element has
parseable `lat`/`lng`; a flat object with truthy numeric `lat` and `lng`.
An object with a nested path is NOT handled and yields `null`, as do a
missing and a malformed blob. -/
theorem getLatLng_tolerated_shapes :
    (∀ (a b : Rat) (g : GeoField),
       getLatLng ⟨some (JValue.num a), some (JValue.num b), g⟩ = some (a, b)) ∧
    (∀ (a b : Rat) (rest : List JValue) (extra : List (String × JValue)),
       getLatLng ⟨none, none, GeoField.parsed (JValue.arr
         (JValue.obj (("lat", JValue.num a) :: ("lng", JValue.num b) :: extra)
           :: rest))⟩ = some (a, b)) ∧
    (∀ (a b : Rat), a ≠ 0 → b ≠ 0 →
       getLatLng ⟨none, none, GeoField.parsed
         (JValue.obj [("lat", JValue.num a), ("lng", JValue.num b)])⟩ =
         some (a, b)) ∧
    getLatLng ⟨none, none, GeoField.missing⟩ = none ∧
    getLatLng ⟨none, none, GeoField.malformed⟩ = none ∧
    getLatLng nestedPathRow = none := by
  refine ⟨fun a b g => rfl, fun a b rest extra => rfl, ?_, rfl, rfl, rfl⟩
  intro a b ha hb
  simp [getLatLng, JValue.get, optTruthy, JValue.truthy, jsParseFloat,
    bne_iff_ne, ha, hb]

/-- C6 witness: the amended theorem applied to concrete rows of each
handled shape, including a truthy flat object. -/
theorem getLatLng_tolerated_shapes_witness :
    getLatLng ⟨some (JValue.num 1), some (JValue.num 2), GeoField.malformed⟩ =
      some (1, 2) ∧
    getLatLng ⟨none, none, GeoField.parsed (JValue.arr
      [JValue.obj [("lat", JValue.num 42), ("lng", JValue.num (-83))]])⟩ =
      some (42, -83) ∧
    getLatLng ⟨none, none, GeoField.parsed
      (JValue.obj [("lat", JValue.num 42), ("lng", JValue.num 5)])⟩ =
      some (42, 5) :=
  ⟨getLatLng_tolerated_shapes.1 1 2 GeoField.malformed,
   getLatLng_tolerated_shapes.2.1 42 (-83) [] [],
   getLatLng_tolerated_shapes.2.2.1 42 5 (by norm_num) (by norm_num)⟩

/-- C2: every class-buyout entry comes from a class with a homeroom teacher
assigned, a homeroom number assigned and at least one student; its required
cans are 10 per student, and it is eligible exactly when its actual cans
reach the requirement. -/
theorem classBuyout_entries_wellformed (classes : List ClassInfo) :
    ∀ e ∈ classBuyoutList classes,
      1 ≤ e.student_count ∧
      e.required_cans = 10 * e.student_count ∧
      (e.is_eligible = true ↔ e.required_cans ≤ e.actual_cans) ∧
      ∃ c ∈ classes,
        c.homeroom_teacher = some e.homeroom_teacher ∧
        c.homeroom_number = some e.homeroom_number ∧
        c.student_count = e.student_count ∧
        c.actual_cans = e.actual_cans := by
  intro e he
  rcases List.mem_filterMap.mp he with ⟨c, hc, hmk⟩
  obtain ⟨ot, onum, scount, scans⟩ := c
  cases ot with
  | none => exact Option.noConfusion hmk
  | some t =>
    cases onum with
    | none => exact Option.noConfusion hmk
    | some room =>
      dsimp only at hmk
      by_cases hcount : 1 ≤ scount
      · rw [if_pos hcount] at hmk
        obtain rfl := Option.some.inj hmk
        refine ⟨hcount, rfl, ?_, ⟨some t, some room, scount, scans⟩, hc, rfl, rfl, rfl, rfl⟩
        simp [mkBuyoutEntry]
      · rw [if_neg hcount] at hmk
        exact Option.noConfusion hmk

/-- C2 witness: the theorem applied to the entry of a concrete assigned
class of 20 students. -/
theorem classBuyout_entries_wellformed_witness :
    1 ≤ (mkBuyoutEntry "Smith" "101" c7Class).student_count ∧
    (mkBuyoutEntry "Smith" "101" c7Class).required_cans =
      10 * (mkBuyoutEntry "Smith" "101" c7Class).student_count ∧
    ((mkBuyoutEntry "Smith" "101" c7Class).is_eligible = true ↔
      (mkBuyoutEntry "Smith" "101" c7Class).required_cans ≤
        (mkBuyoutEntry "Smith" "101" c7Class).actual_cans) ∧
    ∃ c ∈ [c7Class],
      c.homeroom_teacher = some (mkBuyoutEntry "Smith" "101" c7Class).homeroom_teacher ∧
      c.homeroom_number = some (mkBuyoutEntry "Smith" "101" c7Class).homeroom_number ∧
      c.student_count = (mkBuyoutEntry "Smith" "101" c7Class).student_count ∧
      c.actual_cans = (mkBuyoutEntry "Smith" "101" c7Class).actual_cans :=
  classBuyout_entries_wellformed [c7Class] (mkBuyoutEntry "Smith" "101" c7Class)
    (by simp [classBuyoutList, c7Class])

/-- C7: every class-buyout entry's progress percentage is
actual/required × 100 computed from the current totals, uncapped; and the
spec scenario — 20 students, required 200, actual 150 — produces an entry
with progress 75 and eligibility false. -/
theorem classBuyout_progress_uncapped (classes : List ClassInfo) :
    (∀ e ∈ classBuyoutList classes,
       e.progress_percentage =
         (e.actual_cans : Rat) / (e.required_cans : Rat) * 100) ∧
    classBuyoutList [c7Class] =
      [{ homeroom_teacher := "Smith", homeroom_number := "101",
         student_count := 20, required_cans := 200, actual_cans := 150,
         is_eligible := false, progress_percentage := 75 }] := by
  constructor
  · intro e he
    rcases List.mem_filterMap.mp he with ⟨c, hc, hmk⟩
    obtain ⟨ot, onum, scount, scans⟩ := c
    cases ot with
    | none => exact Option.noConfusion hmk
    | some t =>
      cases onum with
      | none => exact Option.noConfusion hmk
      | some room =>
        dsimp only at hmk
        by_cases hcount : 1 ≤ scount
        · rw [if_pos hcount] at hmk
          obtain rfl := Option.some.inj hmk
          rfl
        · rw [if_neg hcount] at hmk
          exact Option.noConfusion hmk
  · simp [classBuyoutList, c7Class, mkBuyoutEntry, ClassBuyoutEntry.mk.injEq]
    norm_num

/-- C7 witness: the progress formula at the concrete scenario entry. -/
theorem classBuyout_progress_uncapped_witness :
    (mkBuyoutEntry "Smith" "101" c7Class).progress_percentage =
      ((mkBuyoutEntry "Smith" "101" c7Class).actual_cans : Rat) /
        ((mkBuyoutEntry "Smith" "101" c7Class).required_cans : Rat) * 100 :=
  (classBuyout_progress_uncapped [c7Class]).1 (mkBuyoutEntry "Smith" "101" c7Class)
    (by simp [classBuyoutList, c7Class])

/-- Membership in an insertion is membership in the tail or being the
inserted entry. -/
theorem mem_insertByCans {x y : RawEntry} {l : List RawEntry} :
    y ∈ insertByCans x l ↔ y = x ∨ y ∈ l := by
  induction l with
  | nil => simp [insertByCans]
  | cons z zs ih =>
    by_cases h : z.totalCans ≤ x.totalCans
    · simp [insertByCans, h]
    · simp [insertByCans, h, ih]
      tauto

/-- Inserting into a list sorted descending by total cans keeps it sorted. -/
theorem sorted_insertByCans {x : RawEntry} {l : List RawEntry}
    (hl : l.Pairwise fun a b => b.totalCans ≤ a.totalCans) :
    (insertByCans x l).Pairwise fun a b => b.totalCans ≤ a.totalCans := by
  induction l with
  | nil => simp [insertByCans]
  | cons y ys ih =>
    rcases List.pairwise_cons.mp hl with ⟨hy, hys⟩
    by_cases h : y.totalCans ≤ x.totalCans
    · rw [insertByCans, if_pos h]
      refine List.pairwise_cons.mpr ⟨?_, hl⟩
      intro z hz
      rcases List.mem_cons.mp hz with rfl | hz2
      · exact h
      · exact le_trans (hy z hz2) h
    · rw [insertByCans, if_neg h]
      refine List.pairwise_cons.mpr ⟨?_, ih hys⟩
      intro z hz
      rcases mem_insertByCans.mp hz with rfl | hz2
      · exact le_of_not_le h
      · exact hy z hz2

/-- The stable sort is sorted descending by total cans. -/
theorem sorted_sortByCansDesc (l : List RawEntry) :
    (sortByCansDesc l).Pairwise fun a b => b.totalCans ≤ a.totalCans := by
  induction l with
  | nil => simp [sortByCansDesc]
  | cons x xs ih => exact sorted_insertByCans ih

/-- Inserting an entry of key `k` prepends it to the key-`k` fiber: every
entry passed over has a strictly larger key. -/
theorem filter_insertByCans_eq {x : RawEntry} {k : Nat} (hx : x.totalCans = k)
    (l : List RawEntry) :
    (insertByCans x l).filter (fun e => e.totalCans == k) =
      x :: l.filter fun e => e.totalCans == k := by
  induction l with
  | nil => simp [insertByCans, hx]
  | cons y ys ih =>
    by_cases h : y.totalCans ≤ x.totalCans
    · rw [insertByCans, if_pos h]
      simp [List.filter_cons, hx]
    · rw [insertByCans, if_neg h]
      have hy : ¬ y.totalCans = k := by omega
      simp [List.filter_cons, hy, ih]

/-- Inserting an entry with a different key leaves the key-`k` fiber
unchanged. -/
theorem filter_insertByCans_ne {x : RawEntry} {k : Nat} (hx : ¬ x.totalCans = k)
    (l : List RawEntry) :
    (insertByCans x l).filter (fun e => e.totalCans == k) =
      l.filter fun e => e.totalCans == k := by
  induction l with
  | nil => simp [insertByCans, hx]
  | cons y ys ih =>
    by_cases h : y.totalCans ≤ x.totalCans
    · rw [insertByCans, if_pos h]
      simp [List.filter_cons, hx]
    · rw [insertByCans, if_neg h]
      simp [List.filter_cons, ih]

/-- Stability of the sort: each equal-cans fiber keeps its input order. -/
theorem stable_sortByCansDesc (l : List RawEntry) (k : Nat) :
    (sortByCansDesc l).filter (fun e => e.totalCans == k) =
      l.filter fun e => e.totalCans == k := by
  induction l with
  | nil => rfl
  | cons x xs ih =>
    by_cases hx : x.totalCans = k
    · rw [sortByCansDesc, filter_insertByCans_eq hx, ih]
      simp [List.filter_cons, hx]
    · rw [sortByCansDesc, filter_insertByCans_ne hx, ih]
      simp [List.filter_cons, hx]

/-- Rank assignment preserves length. -/
theorem length_rankFrom (n : Nat) (l : List RawEntry) :
    (rankFrom n l).length = l.length := by
  induction l generalizing n with
  | nil => rfl
  | cons e es ih => simp [rankFrom, ih]

/-- The i-th ranked entry carries rank `n + i` and the i-th sorted row. -/
theorem getElem?_rankFrom (n : Nat) (l : List RawEntry) (i : Nat) :
    (rankFrom n l)[i]? =
      (l[i]?).map fun e => ⟨n + i, e.name, e.totalCans⟩ := by
  induction l generalizing n i with
  | nil => simp [rankFrom]
  | cons e es ih =>
    cases i with
    | zero => simp [rankFrom]
    | succ j =>
      have hnj : n + 1 + j = n + (j + 1) := by omega
      simp [rankFrom, ih (n + 1) j, hnj]

/-- Every ranked entry takes its can total from a sorted row. -/
theorem mem_rankFrom {z : RankedEntry} {n : Nat} {l : List RawEntry}
    (hz : z ∈ rankFrom n l) : ∃ e ∈ l, z.totalCans = e.totalCans := by
  induction l generalizing n with
  | nil => exact absurd hz (by simp [rankFrom])
  | cons e es ih =>
    rcases List.mem_cons.mp hz with rfl | hz2
    · exact ⟨e, List.mem_cons_self e es, rfl⟩
    · rcases ih hz2 with ⟨w, hw, hwc⟩
      exact ⟨w, List.mem_cons_of_mem e hw, hwc⟩

/-- Rank assignment preserves descending order of can totals. -/
theorem pairwise_rankFrom {l : List RawEntry} (n : Nat)
    (h : l.Pairwise fun a b => b.totalCans ≤ a.totalCans) :
    (rankFrom n l).Pairwise fun a b => b.totalCans ≤ a.totalCans := by
  induction l generalizing n with
  | nil => simp [rankFrom]
  | cons e es ih =>
    rcases List.pairwise_cons.mp h with ⟨he, hes⟩
    refine List.pairwise_cons.mpr ⟨?_, ih (n + 1) hes⟩
    intro z hz
    rcases mem_rankFrom hz with ⟨w, hw, hwc⟩
    simpa [hwc] using he w hw

/-- C3: the ranked leaderboard is ordered descending by total cans — the
entry at rank N has at least the total of the entry at rank N+1 — ranks are
consecutive from 1, and ties keep their input (insertion) order: every
equal-cans fiber of the sorted list equals that fiber of the input. -/
theorem leaderboard_sorted_stable (l : List RawEntry) :
    (∀ i, (h : i + 1 < (rankEntries l).length) →
        (rankEntries l)[i + 1].totalCans ≤ (rankEntries l)[i].totalCans) ∧
    (∀ i, (h : i < (rankEntries l).length) →
        (rankEntries l)[i].rank = i + 1) ∧
    (∀ k, (sortByCansDesc l).filter (fun e => e.totalCans == k) =
        l.filter fun e => e.totalCans == k) := by
  refine ⟨?_, ?_, stable_sortByCansDesc l⟩
  · intro i h
    have h2 : i + 1 < (rankFrom 1 (sortByCansDesc l)).length := h
    exact List.pairwise_iff_getElem.mp
      (pairwise_rankFrom 1 (sorted_sortByCansDesc l)) i (i + 1)
      (by omega) h2 (by omega)
  · intro i h
    have hlen : (rankEntries l).length = (sortByCansDesc l).length :=
      length_rankFrom 1 (sortByCansDesc l)
    have h0 : i < (sortByCansDesc l).length := hlen ▸ h
    have e0 : (rankEntries l)[i]? =
        ((sortByCansDesc l)[i]?).map fun e => ⟨1 + i, e.name, e.totalCans⟩ :=
      getElem?_rankFrom 1 (sortByCansDesc l) i
    rw [List.getElem?_eq_getElem h, List.getElem?_eq_getElem h0] at e0
    have := congrArg RankedEntry.rank (Option.some.inj e0)
    simpa [Nat.add_comm] using this

/-- C3 witness: the theorem at a concrete list with a tie — adjacent order,
the first rank, and the tied fiber. -/
theorem leaderboard_sorted_stable_witness :
    ((rankEntries c3Rows).get ⟨1, by decide⟩).totalCans ≤
      ((rankEntries c3Rows).get ⟨0, by decide⟩).totalCans ∧
    ((rankEntries c3Rows).get ⟨0, by decide⟩).rank = 1 ∧
    (sortByCansDesc c3Rows).filter (fun e => e.totalCans == 5) =
      c3Rows.filter fun e => e.totalCans == 5 :=
  ⟨(leaderboard_sorted_stable c3Rows).1 0 (by decide),
   (leaderboard_sorted_stable c3Rows).2.1 0 (by decide),
   (leaderboard_sorted_stable c3Rows).2.2 5⟩

end CanDrive
